import Mathlib

/-!
Verification of the NepseAPI gateway against its design document.

The Python sources are shallowly embedded: pure functions become Lean
functions, the stateful components (rate limiter, endpoint cache, snapshot
updater) become explicit state-passing functions, fallible operations
return `Option`/`Except`, and the upstream HTTP service is a function-typed
oracle parameter.  Machine floats carrying market quantities and timestamps
become integers: every property under verification involves only ordering,
addition and zero-tests, all preserved by the embedding, and integer-valued
instants and quantities make the definitions kernel-evaluable on concrete
inputs.  Python `str` values that undergo case-mapping or
stripping are modelled as `List Char` with ASCII semantics; strings used
only as opaque keys stay `String`.
-/

namespace NepseAPI

/-! ### Association lists standing for Python `dict`

Python dicts preserve insertion order; writing an existing key updates the
value in place, a new key is appended at the end.  `alookup` is ordinary
key lookup and `upsert` is `d[k] = v`. -/

def alookup {κ α : Type} [DecidableEq κ] : List (κ × α) → κ → Option α
  | [], _ => none
  | (k, v) :: rest, key => if k = key then some v else alookup rest key

def upsert {κ α : Type} [DecidableEq κ] : List (κ × α) → κ → α → List (κ × α)
  | [], key, val => [(key, val)]
  | (k, v) :: rest, key, val =>
    if k = key then (key, val) :: rest else (k, v) :: upsert rest key val

/-- Python dict comprehension over a list, keyed by `key`
(`\x7bkey(x): x for x in l\x7d`): later duplicates overwrite earlier ones. -/
def dictOfList {α : Type} (key : α → String) (l : List α) : List (String × α) :=
  l.foldl (fun d x => upsert d (key x) x) []

/-! ### Python strings (`validator.py` needs `upper`, `strip`, `startswith`, slicing)

`PyStr` is the character sequence of a Python `str`.  The repository only
ever case-maps ASCII symbol/index names, so `upper` is modelled on the
ASCII range, and `strip` removes the ASCII whitespace characters Python
strips by default. -/

abbrev PyStr := List Char

def pyUpperChar (c : Char) : Char :=
  if 97 ≤ c.toNat ∧ c.toNat ≤ 122 then Char.ofNat (c.toNat - 32) else c

def pyUpper (s : PyStr) : PyStr := s.map pyUpperChar

def pyIsSpace (c : Char) : Bool :=
  c.toNat = 32 || c.toNat = 9 || c.toNat = 10 || c.toNat = 13 ||
    c.toNat = 11 || c.toNat = 12

def pyStrip (s : PyStr) : PyStr :=
  ((s.dropWhile pyIsSpace).reverse.dropWhile pyIsSpace).reverse

def pyStr (s : String) : PyStr := s.toList

/-! ### `validator.py`

The validator is parameterised by the contents of `stockmap.json`
(`stock_data`: symbol ↦ info); the set of valid symbols is its key set, in
the backing store's iteration order.  The index-name set is the literal set
from `NepseValidator._load_index_names`. -/

/-- Stock info record held in `stockmap.json` (only the part the validator
reads). -/
structure StockInfo where
  name : PyStr
deriving Repr, DecidableEq

/-- Result shape of `NepseValidator.validate_stock_symbol`. -/
structure StockValidation where
  valid : Bool
  error : Option PyStr
  symbol : Option PyStr
  suggestions : Option (List PyStr)
  info : Option StockInfo
deriving Repr, DecidableEq

/-- Result shape of `NepseValidator.validate_index_name`. -/
structure IndexValidation where
  valid : Bool
  error : Option PyStr
  indexName : Option PyStr
deriving Repr, DecidableEq

/-- The literal index-name set of `NepseValidator._load_index_names`.  The
source comments record that four entries were *corrected from* the legacy
upstream spellings; the legacy spellings themselves are not in the set. -/
def index_names : List PyStr :=
  [pyStr ("Banking SubIndex"),
   pyStr ("Development Bank Index"),
   pyStr ("Finance Index"),
   pyStr ("Hotels And Tourism Index"),
   pyStr ("HydroPower Index"),
   pyStr ("Investment Index"),
   pyStr ("Life Insurance"),
   pyStr ("Manufacturing And Processing"),
   pyStr ("Microfinance Index"),
   pyStr ("Mutual Fund"),
   pyStr ("NEPSE Index"),
   pyStr ("Non Life Insurance"),
   pyStr ("Others Index"),
   pyStr ("Trading Index")]

/-- `NepseValidator.is_valid_index_name`. -/
def is_valid_index_name (s : PyStr) : Bool :=
  if s = [] then false else decide (s ∈ index_names)

/-- `NepseValidator.validate_index_name`. -/
def validate_index_name (s : PyStr) : IndexValidation :=
  if s = [] then
    { valid := false, error := some (pyStr ("Index name is required")),
      indexName := none }
  else
    let t := pyStrip s
    if is_valid_index_name t then
      { valid := true, error := none, indexName := some t }
    else
      { valid := false,
        error := some (pyStr ("Index '") ++ t ++ pyStr ("' not found.")),
        indexName := some t }

/-- Key set of the stock data, as `NepseValidator.get_valid_stock_symbols`. -/
def get_valid_stock_symbols (stockData : List (PyStr × StockInfo)) : List PyStr :=
  stockData.map Prod.fst

/-- `NepseValidator.is_valid_stock_symbol`. -/
def is_valid_stock_symbol (stockData : List (PyStr × StockInfo)) (s : PyStr) : Bool :=
  if s = [] then false
  else decide (pyUpper s ∈ get_valid_stock_symbols stockData)

/-- `NepseValidator.get_stock_info`. -/
def get_stock_info (stockData : List (PyStr × StockInfo)) (s : PyStr) : Option StockInfo :=
  if is_valid_stock_symbol stockData s then alookup stockData (pyUpper s) else none

/-- Loop body of `NepseValidator._get_similar_symbols`: walk the valid
symbols, collect those starting with the two-character prefix, and stop as
soon as five are collected. -/
def similarLoop (pfx : PyStr) : List PyStr → List PyStr → List PyStr
  | [], acc => acc
  | v :: rest, acc =>
    let acc2 := if pfx.isPrefixOf v then acc ++ [v] else acc
    if 5 ≤ acc2.length then acc2 else similarLoop pfx rest acc2

/-- `NepseValidator._get_similar_symbols` (with the default
`max_suggestions = 5`). -/
def get_similar_symbols (stockData : List (PyStr × StockInfo)) (s : PyStr) : List PyStr :=
  if s = [] then []
  else
    let su := pyUpper s
    (similarLoop (su.take 2) (get_valid_stock_symbols stockData) []).take 5

/-- `NepseValidator.validate_stock_symbol`. -/
def validate_stock_symbol (stockData : List (PyStr × StockInfo)) (s : PyStr) :
    StockValidation :=
  if s = [] then
    { valid := false, error := some (pyStr ("Stock symbol is required")),
      symbol := none, suggestions := none, info := none }
  else
    let t := pyStrip (pyUpper s)
    if is_valid_stock_symbol stockData t then
      { valid := true, error := none, symbol := some t, suggestions := none,
        info := get_stock_info stockData t }
    else
      { valid := false,
        error := some (pyStr ("Stock symbol '") ++ t ++
          pyStr ("' not found. Please check if it's a valid NEPSE listed company.")),
        symbol := some t,
        suggestions := some (get_similar_symbols stockData t), info := none }

/-! ### `rate_limiter.py`

`SimpleRateLimiter` keeps, per IP and per *endpoint string* (not per
category), a deque of request timestamps; the numeric limit is chosen by
the endpoint's category.  Timestamps (`time.time()` floats) are rationals.
The nested `Dict[ip, Dict[endpoint, deque]]` is flattened to an association
list keyed by the `(ip, endpoint)` pair; deleting an IP removes all its
endpoint entries, which the flattened form mirrors by filtering on the
first component. -/

/-- Info dict returned by `SimpleRateLimiter.is_allowed`.  `reset_time` is
`int(current_time + window)`; on the integer-valued clock of this model the
`int()` truncation is the identity. -/
structure RateInfo where
  limit : ℕ
  remaining : ℤ
  resetTime : ℤ
  category : String
deriving Repr, DecidableEq

/-- State of `SimpleRateLimiter`: `requests` flattens the nested dict to
`(ip, endpoint) ↦ deque of timestamps`; `lastCleanup` is `ip ↦ last seen`. -/
structure RateState where
  requests : List ((String × String) × List ℤ)
  lastCleanup : List (String × ℤ)
deriving Repr, DecidableEq

/-- The `__init__` state: both dicts empty. -/
def initRateState : RateState := { requests := [], lastCleanup := [] }

/-- The `limits` dict of `SimpleRateLimiter.__init__` (requests/minute). -/
def limits : List (String × ℕ) :=
  [("default", 60), ("validation", 120), ("market_data", 60),
   ("websocket", 100), ("websocket_message", 50), ("health", 50)]

/-- Looks a category up in `limits` (`self.limits[category]`; the categories
produced by `_get_endpoint_category` are always present, so the `KeyError`
branch is unreachable and `0` stands in for it). -/
def getLimit (category : String) : ℕ := (alookup limits category).getD 0

/-- `SimpleRateLimiter._get_endpoint_category`.  Python's
`endpoint.startswith("/validate")` is the prefix test on the character
sequence. -/
def get_endpoint_category (endpoint : String) : String :=
  if endpoint = "/health" then "health"
  else if (pyStr ("/validate")).isPrefixOf (pyStr endpoint) then "validation"
  else if endpoint = "/Summary" ∨ endpoint = "/LiveMarket" ∨
      endpoint = "/PriceVolume" ∨ endpoint = "/TopGainers" ∨
      endpoint = "/TopLosers" then "market_data"
  else if endpoint = "websocket_connection" then "websocket"
  else if endpoint = "websocket_message" then "websocket_message"
  else "default"

/-- The window size in seconds (`self.window_size`). -/
def window_size : ℤ := 60

/-- `SimpleRateLimiter._cleanup_old_requests`: pop entries from the front
of the deque while they are older than `current_time - window_size`. -/
def cleanup_old_requests (currentTime : ℤ) (w : List ℤ) : List ℤ :=
  w.dropWhile (fun t => decide (t < currentTime - window_size))

/-- `SimpleRateLimiter._cleanup_old_ips`: drop every IP not seen within the
last `cleanup_interval = 300` seconds, from both dicts. -/
def cleanup_old_ips (s : RateState) (currentTime : ℤ) : RateState :=
  let stale := fun ip => match alookup s.lastCleanup ip with
    | some lastSeen => decide (lastSeen < currentTime - 300)
    | none => false
  { requests := s.requests.filter (fun kv => !stale kv.1.1),
    lastCleanup := s.lastCleanup.filter (fun kv => !stale kv.1) }

/-- The deque for `(ip, endpoint)`; a missing key reads as the fresh empty
deque that `defaultdict` would create. -/
def lookupWindow (s : RateState) (ip endpoint : String) : List ℤ :=
  (alookup s.requests (ip, endpoint)).getD []

/-- `SimpleRateLimiter.is_allowed`, with the wall clock passed explicitly.
Returns `(allowed, info, state after the call)`. -/
def is_allowed (s : RateState) (ip endpoint : String) (currentTime : ℤ) :
    Bool × RateInfo × RateState :=
  let category := get_endpoint_category endpoint
  let lim := getLimit category
  let w := cleanup_old_requests currentTime (lookupWindow s ip endpoint)
  let s1 : RateState :=
    { requests := upsert s.requests (ip, endpoint) w,
      lastCleanup := upsert s.lastCleanup ip currentTime }
  let s2 := if 1000 < s1.lastCleanup.length then cleanup_old_ips s1 currentTime else s1
  let w2 := lookupWindow s2 ip endpoint
  let currentCount := w2.length
  let info : RateInfo :=
    { limit := lim, remaining := max 0 ((lim : ℤ) - currentCount),
      resetTime := currentTime + window_size, category := category }
  if lim ≤ currentCount then (false, info, s2)
  else
    let w3 := w2 ++ [currentTime]
    (true, { info with remaining := max 0 ((lim : ℤ) - w3.length) },
      { s2 with requests := upsert s2.requests (ip, endpoint) w3 })

/-- Runs a sequence of `(ip, endpoint, time)` requests through
`is_allowed`, collecting each admission verdict. -/
def runSeq (s : RateState) : List (String × String × ℤ) → List Bool × RateState
  | [] => ([], s)
  | (ip, endpoint, t) :: rest =>
    let r := is_allowed s ip endpoint t
    let tail := runSeq r.2.2 rest
    (r.1 :: tail.1, tail.2)

/-! ### `mcp_server.py`: the endpoint response cache

`fetch_nepse_api` keeps a module-level dict `path ↦ (payload, expiry)` with
a 600-second TTL.  The upstream HTTP GET + `raise_for_status` + `json()`
pipeline is an oracle `upstream : String → Except ε α`; `.error` covers
network failure, non-2xx status and malformed JSON alike.  The result
reports whether an upstream call was issued. -/

/-- Python `del d[key]` on an insertion-ordered dict: drop the pair with
that key, every other pair keeping its position. -/
def removeKey {α : Type} (l : List (String × α)) (k : String) : List (String × α) :=
  l.filter (fun kv => kv.1 ≠ k)

/-- The endpoint cache: `path ↦ (payload, expires_at)`. -/
structure CacheState (α : Type) where
  entries : List (String × (α × ℤ))
deriving Repr, DecidableEq

/-- The cache TTL in seconds (`_ENDPOINT_CACHE_TTL`). -/
def cacheTTL : ℤ := 600

/-- `fetch_nepse_api`, with the clock and the upstream oracle explicit.
Returns `(outcome, cache after the call, whether upstream was called)`. -/
def fetch_nepse_api {ε α : Type} (upstream : String → Except ε α)
    (s : CacheState α) (endpoint : String) (now : ℤ) :
    Except ε α × CacheState α × Bool :=
  let afterHit : CacheState α → Except ε α × CacheState α × Bool := fun s1 =>
    match upstream endpoint with
    | Except.error e => (Except.error e, s1, true)
    | Except.ok data =>
      (Except.ok data,
        { entries := upsert s1.entries endpoint (data, now + cacheTTL) }, true)
  match alookup s.entries endpoint with
  | some (data, expiresAt) =>
    if now < expiresAt then (Except.ok data, s, false)
    else afterHit { entries := removeKey s.entries endpoint }
  | none => afterHit s

/-! ### The composite aggregator

`server.py getTradeTurnoverTransactionSubindices` and
`socketServer.py _get_trade_turnover_transaction_subindices` build the same
scrip details; they differ in one line of the sector loop: the HTTP version
reads `sector_mapper[sector]` (a `KeyError` for an unmapped sector), the
WebSocket version `sector_mapper.get(sector, sector)` before indexing
`sector_sub_indices` (a `KeyError` when the fallback label is not a
sub-index).  Both `KeyError`s abort the aggregation, modelled as `none`.
JSON numerics are rationals. -/

structure Company where
  symbol : String
  sectorName : String
  securityName : String
  instrumentType : String
deriving Repr, DecidableEq

structure TurnoverEntry where
  symbol : String
  turnover : ℤ
deriving Repr, DecidableEq

structure TransactionEntry where
  symbol : String
  totalTrades : ℤ
deriving Repr, DecidableEq

structure TradeEntry where
  symbol : String
  shareTraded : ℤ
deriving Repr, DecidableEq

structure GainerLoserEntry where
  symbol : String
  pointChange : ℤ
  percentageChange : ℤ
  ltp : ℤ
deriving Repr, DecidableEq

structure PriceVolumeEntry where
  symbol : String
  previousClose : ℤ
  lastUpdatedDateTime : ℤ
deriving Repr, DecidableEq

/-- One object of `getNepseSubIndices` (`index` label plus the quantities
the claims never inspect, summarised as `value`). -/
structure SubIndexEntry where
  index : String
  value : ℤ
deriving Repr, DecidableEq

/-- The five joined collections plus the sub-indices, as fetched upstream. -/
structure AggInput where
  companies : List Company
  turnover : List TurnoverEntry
  transaction : List TransactionEntry
  trade : List TradeEntry
  gainers : List GainerLoserEntry
  losers : List GainerLoserEntry
  priceVolume : List PriceVolumeEntry
  subIndices : List SubIndexEntry
deriving Repr, DecidableEq

/-- One entry of `scripsDetails` (`company_details` in the source; the
duplicated `lastUpdatedDateTime` key of the Python literal is one field). -/
structure ScripDetail where
  symbol : String
  sector : String
  Turnover : ℤ
  transaction : ℤ
  volume : ℤ
  previousClose : ℤ
  lastUpdatedDateTime : ℤ
  name : String
  category : String
  pointChange : ℤ
  percentageChange : ℤ
  ltp : ℤ
deriving Repr, DecidableEq

/-- One entry of `sectorsDetails`; `turnover` carries the whole sub-index
object. -/
structure SectorDetail where
  transaction : ℤ
  volume : ℤ
  totalTurnover : ℤ
  turnover : SubIndexEntry
  sectorName : String
deriving Repr, DecidableEq

structure AggResult where
  scripsDetails : List (String × ScripDetail)
  sectorsDetails : List (String × SectorDetail)
deriving Repr, DecidableEq

/-- The `sector_mapper` literal shared by both transports (13 entries). -/
def sector_mapper : List (String × String) :=
  [("Commercial Banks", "Banking SubIndex"),
   ("Development Banks", "Development Bank Index"),
   ("Finance", "Finance Index"),
   ("Hotels And Tourism", "Hotels And Tourism Index"),
   ("Hydro Power", "HydroPower Index"),
   ("Investment", "Investment Index"),
   ("Life Insurance", "Life Insurance"),
   ("Manufacturing And Processing", "Manufacturing And Processing"),
   ("Microfinance", "Microfinance Index"),
   ("Mutual Fund", "Mutual Fund"),
   ("Non Life Insurance", "Non Life Insurance"),
   ("Others", "Others Index"),
   ("Tradings", "Trading Index")]

def turnoverDict (inp : AggInput) : List (String × TurnoverEntry) :=
  dictOfList TurnoverEntry.symbol inp.turnover

def transactionDict (inp : AggInput) : List (String × TransactionEntry) :=
  dictOfList TransactionEntry.symbol inp.transaction

def tradeDict (inp : AggInput) : List (String × TradeEntry) :=
  dictOfList TradeEntry.symbol inp.trade

def gainersDict (inp : AggInput) : List (String × GainerLoserEntry) :=
  dictOfList GainerLoserEntry.symbol inp.gainers

def losersDict (inp : AggInput) : List (String × GainerLoserEntry) :=
  dictOfList GainerLoserEntry.symbol inp.losers

def priceVolumeDict (inp : AggInput) : List (String × PriceVolumeEntry) :=
  dictOfList PriceVolumeEntry.symbol inp.priceVolume

def companiesDict (inp : AggInput) : List (String × Company) :=
  dictOfList Company.symbol inp.companies

def subIndicesDict (inp : AggInput) : List (String × SubIndexEntry) :=
  dictOfList SubIndexEntry.index inp.subIndices

/-- The `company_details` dict built for one company: `.get(symbol, \x7b\x7d)
.get(field, 0)` defaults for the three top-N collections and price-volume,
then the gainers/losers/zero cascade for point change, percentage change
and ltp. -/
def buildScripDetail (inp : AggInput) (symbol : String) (company : Company) :
    ScripDetail :=
  let changes : ℤ × ℤ × ℤ :=
    match alookup (gainersDict inp) symbol with
    | some g => (g.pointChange, g.percentageChange, g.ltp)
    | none =>
      match alookup (losersDict inp) symbol with
      | some l => (l.pointChange, l.percentageChange, l.ltp)
      | none => (0, 0, 0)
  { symbol := symbol
    sector := company.sectorName
    Turnover := ((alookup (turnoverDict inp) symbol).map (·.turnover)).getD 0
    transaction := ((alookup (transactionDict inp) symbol).map (·.totalTrades)).getD 0
    volume := ((alookup (tradeDict inp) symbol).map (·.shareTraded)).getD 0
    previousClose := ((alookup (priceVolumeDict inp) symbol).map (·.previousClose)).getD 0
    lastUpdatedDateTime :=
      ((alookup (priceVolumeDict inp) symbol).map (·.lastUpdatedDateTime)).getD 0
    name := company.securityName
    category := company.instrumentType
    pointChange := changes.1
    percentageChange := changes.2.1
    ltp := changes.2.2 }

/-- The `scrips_details` loop: every company of the company-list dict, with
the drop-on-zero rule `ltp == 0 or previousClose == 0 → continue`. -/
def scripsDetailsOf (inp : AggInput) : List (String × ScripDetail) :=
  (companiesDict inp).foldl
    (fun acc kv =>
      let d := buildScripDetail inp kv.1 kv.2
      if d.ltp = 0 ∨ d.previousClose = 0 then acc else upsert acc kv.1 d)
    []

/-- Python's `set(...)` of sector names, fixed to first-occurrence order
(the set's iteration order is unspecified and no claim depends on it). -/
def dedupFirst (l : List String) : List String :=
  l.foldl (fun acc s => if s ∈ acc then acc else acc ++ [s]) []

/-- The sector names iterated by the rollup loop:
`\x7bcompany["sectorName"] for company in companies.values()\x7d`. -/
def sectorsOf (inp : AggInput) : List String :=
  dedupFirst ((companiesDict inp).map (fun kv => kv.2.sectorName))

/-- The accumulating sums of the rollup loop over `scrips_details.values()`:
`(total_trades, total_trade_quantity, total_turnover)`. -/
def sectorSums (scrips : List (String × ScripDetail)) (sector : String) :
    ℤ × ℤ × ℤ :=
  scrips.foldl
    (fun acc kv =>
      if kv.2.sector = sector then
        (acc.1 + kv.2.transaction, acc.2.1 + kv.2.volume, acc.2.2 + kv.2.Turnover)
      else acc)
    (0, 0, 0)

/-- One `sector_details[sector]` entry, `server.py` flavour: the label is
`sector_mapper[sector]` and the sub-index lookup must both succeed. -/
def sectorDetailServer (inp : AggInput) (scrips : List (String × ScripDetail))
    (sector : String) : Option SectorDetail :=
  match alookup sector_mapper sector with
  | none => none
  | some label =>
    match alookup (subIndicesDict inp) label with
    | none => none
    | some obj =>
      let sums := sectorSums scrips sector
      some { transaction := sums.1, volume := sums.2.1, totalTurnover := sums.2.2,
             turnover := obj, sectorName := sector }

/-- One `sector_details[sector]` entry, `socketServer.py` flavour: the
label falls back to the raw sector name (`sector_mapper.get(sector,
sector)`), and only the sub-index lookup can fail. -/
def sectorDetailSocket (inp : AggInput) (scrips : List (String × ScripDetail))
    (sector : String) : Option SectorDetail :=
  let label := (alookup sector_mapper sector).getD sector
  match alookup (subIndicesDict inp) label with
  | none => none
  | some obj =>
    let sums := sectorSums scrips sector
    some { transaction := sums.1, volume := sums.2.1, totalTurnover := sums.2.2,
           turnover := obj, sectorName := sector }

/-- Runs a per-sector builder over every sector, aborting (as the
uncaught `KeyError` does) when any sector fails. -/
def buildSectors (detail : String → Option SectorDetail) :
    List String → Option (List (String × SectorDetail))
  | [] => some []
  | sector :: rest =>
    match detail sector with
    | none => none
    | some d =>
      match buildSectors detail rest with
      | none => none
      | some ds => some ((sector, d) :: ds)

/-- `server.py getTradeTurnoverTransactionSubindices` (the composite
aggregation behind the HTTP route). -/
def getTradeTurnoverTransactionSubindices (inp : AggInput) : Option AggResult :=
  let scrips := scripsDetailsOf inp
  match buildSectors (sectorDetailServer inp scrips) (sectorsOf inp) with
  | none => none
  | some sectors => some { scripsDetails := scrips, sectorsDetails := sectors }

/-- `socketServer.py _get_trade_turnover_transaction_subindices` (the same
aggregation behind the WebSocket route). -/
def getTradeTurnoverTransactionSubindicesSocket (inp : AggInput) : Option AggResult :=
  let scrips := scripsDetailsOf inp
  match buildSectors (sectorDetailSocket inp scrips) (sectorsOf inp) with
  | none => none
  | some sectors => some { scripsDetails := scrips, sectorsDetails := sectors }

/-! ### `updateStocksMap.py`: the snapshot updater

`update_stock_map` is modelled with its upstream interactions as oracle
fields: the health check outcome, the two fetches (an `Except.error` is a
raised exception that the outer `try` turns into `False`), and the save
outcome.  The persisted `stockmap.json` is an explicit `Option` file value;
`corruptFile` stands for whatever a failed `save_stock_map` (which opens
the target for writing before it can fail) leaves behind. -/

/-- One item of the `/SecurityList` payload (the fields the updater reads;
`none` stands for a missing JSON key, and Python's truthiness test on the
symbol makes the empty string falsy). -/
structure Security where
  activeStatus : Option String
  symbol : Option String
  securityName : Option String
deriving Repr, DecidableEq

/-- One value of the `stock_map` built by `create_stock_map`. -/
structure StockMapEntry where
  name : String
  sector : String
  internalSector : String
deriving Repr, DecidableEq

/-- The `INTERNAL_SECTOR_MAP` literal (15 entries, legacy sub-index
labels). -/
def INTERNAL_SECTOR_MAP : List (String × String) :=
  [("Commercial Banks", "Banking SubIndex"),
   ("Development Banks", "Development Bank Ind."),
   ("Finance", "Finance Index"),
   ("Hotels And Tourism", "Hotels And Tourism"),
   ("Hydro Power", "HydroPower Index"),
   ("Investment", "Investment"),
   ("Life Insurance", "Life Insurance"),
   ("Manufacturing And Processing", "Manufacturing And Pr."),
   ("Microfinance", "Microfinance Index"),
   ("Mutual Fund", "Mutual Fund"),
   ("NEPSE", "NEPSE Index"),
   ("Non Life Insurance", "Non Life Insurance"),
   ("Others", "Others Index"),
   ("Tradings", "Trading Index"),
   ("Promoter Share", "Promoter Share")]

/-- `StockMapUpdater.create_symbol_sector_map`: reverse lookup symbol ↦
sector; a sector whose value is not a list (`none`) is skipped. -/
def create_symbol_sector_map (sectorData : List (String × Option (List String))) :
    List (String × String) :=
  sectorData.foldl
    (fun m kv =>
      match kv.2 with
      | none => m
      | some symbols => symbols.foldl (fun m sym => upsert m sym kv.1) m)
    []

/-- `StockMapUpdater.create_stock_map`: keep active securities with a
truthy string symbol, defaulting the sector to "Unknown" and the internal
sector to "Others Index". -/
def create_stock_map (securityData : List Security)
    (symbolSectorMap : List (String × String)) : List (String × StockMapEntry) :=
  securityData.foldl
    (fun m item =>
      match item.symbol with
      | none => m
      | some sym =>
        if item.activeStatus = some ("A") ∧ sym ≠ "" then
          let sector := (alookup symbolSectorMap sym).getD ("Unknown")
          let internalSector := (alookup INTERNAL_SECTOR_MAP sector).getD ("Others Index")
          upsert m sym
            { name := item.securityName.getD sym, sector := sector,
              internalSector := internalSector }
        else m)
    []

/-- Oracle outcomes for one `update_stock_map` run. -/
structure UpdaterRun where
  healthy : Bool
  securityList : Except String (List Security)
  sectorData : Except String (List (String × Option (List String)))
  saveOk : Bool
deriving Repr

/-- `StockMapUpdater.update_stock_map`, returning the boolean outcome and
the persisted file after the run.  `file` is the file before the run;
`corruptFile` is what a failed save leaves (the claim under proof does not
constrain it). -/
def update_stock_map (run : UpdaterRun) (file corruptFile : Option (List (String × StockMapEntry))) :
    Bool × Option (List (String × StockMapEntry)) :=
  if !run.healthy then (false, file)
  else
    match run.securityList with
    | Except.error _ => (false, file)
    | Except.ok securityData =>
      match run.sectorData with
      | Except.error _ => (false, file)
      | Except.ok sectorData =>
        let symbolSectorMap := create_symbol_sector_map sectorData
        let stockMap := create_stock_map securityData symbolSectorMap
        if run.saveOk then (true, some stockMap) else (false, corruptFile)


/-! ### Concrete fixtures used by the claim witnesses -/

/-- Concrete run whose health check fails. -/
def unhealthyRun : UpdaterRun :=
  { healthy := false, securityList := Except.ok [], sectorData := Except.ok [],
    saveOk := true }

/-- Upstream oracle for the cache witnesses: one good path, everything
else failing. -/
def upOracle : String → Except String ℕ :=
  fun p => if p = "/Summary" then Except.ok 42 else Except.error ("down")

/-- The empty cache the process starts with. -/
def emptyCache : CacheState ℕ := { entries := [] }

/-- A cache holding an entry for "P" that expires at t=10, and an upstream
that always fails. -/
def expiredCache : CacheState ℕ := { entries := [("P", (7, 10))] }

def downOracle : String → Except String ℕ := fun _ => Except.error ("down")

/-- Stock data for the C8 witness: two N-prefixed symbols plus one more. -/
def stockDataW : List (PyStr × StockInfo) :=
  [(pyStr ("NABIL"), { name := pyStr ("Nabil Bank") }),
   (pyStr ("NBL"), { name := pyStr ("Nepal Bank") }),
   (pyStr ("ZZTOP"), { name := pyStr ("ZZ Top") })]

/-- Company fixtures for the aggregator witnesses. -/
def cAAA : Company :=
  { symbol := "AAA", sectorName := "Finance", securityName := "A Co",
    instrumentType := "EQ" }

def cZERO : Company :=
  { symbol := "ZERO", sectorName := "Finance", securityName := "Z Co",
    instrumentType := "EQ" }

/-- Aggregation input for the C2 witness: "AAA" trades (gainer, ltp 10,
previousClose 5) but sits in none of the three top-N collections; "ZERO"
is absent from gainers and losers, so its derived ltp is 0. -/
def c2Input : AggInput :=
  { companies := [cAAA, cZERO],
    turnover := [], transaction := [], trade := [],
    gainers := [{ symbol := "AAA", pointChange := 1, percentageChange := 1, ltp := 10 }],
    losers := [],
    priceVolume := [{ symbol := "AAA", previousClose := 5, lastUpdatedDateTime := 7 }],
    subIndices := [{ index := "Finance Index", value := 1000 }] }

/-- Aggregation input for the C5 witness: two Finance scrips with turnover
100 and 50, both with nonzero ltp and previousClose. -/
def finInput : AggInput :=
  { companies := [cAAA,
      { symbol := "BBB", sectorName := "Finance", securityName := "B Co",
        instrumentType := "EQ" }],
    turnover := [{ symbol := "AAA", turnover := 100 },
                 { symbol := "BBB", turnover := 50 }],
    transaction := [], trade := [],
    gainers := [{ symbol := "AAA", pointChange := 1, percentageChange := 1, ltp := 10 },
                { symbol := "BBB", pointChange := 2, percentageChange := 2, ltp := 20 }],
    losers := [],
    priceVolume := [{ symbol := "AAA", previousClose := 5, lastUpdatedDateTime := 0 },
                    { symbol := "BBB", previousClose := 6, lastUpdatedDateTime := 0 }],
    subIndices := [{ index := "Finance Index", value := 1000 }] }

/-- The C5 witness aggregation result. -/
def finRes : AggResult :=
  (getTradeTurnoverTransactionSubindices finInput).getD
    { scripsDetails := [], sectorsDetails := [] }

/-- Aggregation input for the C10 witness: the only Finance company is
excluded by the drop-on-zero rule (no gainers/losers entry, so ltp 0). -/
def haltInput : AggInput :=
  { companies :=
      [{ symbol := "HALT", sectorName := "Finance", securityName := "H Co",
         instrumentType := "EQ" }],
    turnover := [], transaction := [], trade := [], gainers := [], losers := [],
    priceVolume := [], subIndices := [{ index := "Finance Index", value := 1000 }] }

/-- The C10 witness aggregation result. -/
def haltRes : AggResult :=
  (getTradeTurnoverTransactionSubindices haltInput).getD
    { scripsDetails := [], sectorsDetails := [] }

/-- Aggregation input for C3: one company whose sector "Promoter Share"
(a real sector of `INTERNAL_SECTOR_MAP`) is absent from the aggregator's
13-entry `sector_mapper`. -/
def promoterInput : AggInput :=
  { companies :=
      [{ symbol := "PROMO", sectorName := "Promoter Share",
         securityName := "P Co", instrumentType := "EQ" }],
    turnover := [], transaction := [], trade := [], gainers := [], losers := [],
    priceVolume := [], subIndices := [] }

/-- Request sequence for the C1 counterexample: one client sends 60
requests to "/Summary" and then one to "/LiveMarket", all inside one
60-second window; both endpoints resolve to category "market_data", whose
limit is 60. -/
def rateCxReqs : List (String × String × ℤ) :=
  List.replicate 60 ("1.2.3.4", "/Summary", (0 : ℤ)) ++ [("1.2.3.4", "/LiveMarket", 0)]

/-! ## Helper lemmas -/

theorem alookup_upsert_self {κ α : Type} [DecidableEq κ] (d : List (κ × α)) (k : κ) (v : α) :
    alookup (upsert d k v) k = some v := by
  induction d with
  | nil => simp [upsert, alookup]
  | cons kv rest ih =>
    by_cases h : kv.1 = k
    · simp [upsert, alookup, h]
    · simpa [upsert, alookup, h] using ih

theorem alookup_upsert_ne {κ α : Type} [DecidableEq κ] (d : List (κ × α)) (k : κ) (v : α)
    (k' : κ) (h : k' ≠ k) : alookup (upsert d k v) k' = alookup d k' := by
  induction d with
  | nil => simp [upsert, alookup, Ne.symm h]
  | cons kv rest ih =>
    by_cases hk : kv.1 = k
    · subst hk
      simp [upsert, alookup, h, Ne.symm h]
    · simp [upsert, alookup, hk]
      split <;> simp_all

theorem alookup_eq_none_iff {κ α : Type} [DecidableEq κ] (d : List (κ × α)) (k : κ) :
    alookup d k = none ↔ k ∉ d.map Prod.fst := by
  induction d with
  | nil => simp [alookup]
  | cons kv rest ih =>
    by_cases h : kv.1 = k
    · simp [alookup, h]
    · simp [alookup, h, ih, Ne.symm h]

theorem upsert_eq_append {κ α : Type} [DecidableEq κ] (d : List (κ × α)) (k : κ) (v : α)
    (h : k ∉ d.map Prod.fst) : upsert d k v = d ++ [(k, v)] := by
  induction d with
  | nil => simp [upsert]
  | cons kv rest ih =>
    simp only [List.map_cons, List.mem_cons] at h
    push_neg at h
    simp [upsert, Ne.symm h.1, ih h.2]

theorem dictOfList_nodup {α : Type} (key : α → String) (l : List α)
    (h : (l.map key).Nodup) :
    dictOfList key l = l.map (fun x => (key x, x)) := by
  suffices H : ∀ (acc : List (String × α)),
      (acc.map Prod.fst ++ l.map key).Nodup →
      l.foldl (fun d x => upsert d (key x) x) acc = acc ++ l.map (fun x => (key x, x)) by
    simpa [dictOfList] using H [] (by simpa using h)
  clear h
  induction l with
  | nil => intro acc _; simp
  | cons x rest ih =>
    intro acc hacc
    have hx : key x ∉ acc.map Prod.fst := by
      intro hmem
      exact (List.disjoint_of_nodup_append hacc) hmem (by simp)
    have step : upsert acc (key x) x = acc ++ [(key x, x)] := upsert_eq_append _ _ _ hx
    have hacc2 : ((acc ++ [(key x, x)]).map Prod.fst ++ rest.map key).Nodup := by
      simp only [List.map_append, List.map_cons] at hacc ⊢
      simpa [List.append_assoc] using hacc
    calc (x :: rest).foldl (fun d y => upsert d (key y) y) acc
      = rest.foldl (fun d y => upsert d (key y) y) (acc ++ [(key x, x)]) := by
          simp [List.foldl_cons, step]
    _ = (acc ++ [(key x, x)]) ++ rest.map (fun y => (key y, y)) :=
          ih (acc ++ [(key x, x)]) hacc2
    _ = acc ++ (x :: rest).map (fun y => (key y, y)) := by simp

theorem alookup_dictOfList_none {α : Type} (key : α → String) (l : List α) (k : String)
    (h : k ∉ l.map key) : alookup (dictOfList key l) k = none := by
  suffices H : ∀ (acc : List (String × α)), alookup acc k = none →
      alookup (l.foldl (fun d x => upsert d (key x) x) acc) k = none by
    exact H [] rfl
  induction l with
  | nil => intro acc hacc; simpa using hacc
  | cons x rest ih =>
    intro acc hacc
    simp only [List.map_cons, List.mem_cons] at h
    push_neg at h
    have : alookup (upsert acc (key x) x) k = none := by
      rw [alookup_upsert_ne _ _ _ _ h.1]; exact hacc
    simpa using ih h.2 _ this

/-! ## Claim C9: the snapshot updater only writes on full success -/

/-- Claim C9: `update_stock_map` returns a boolean; a failed health check
returns `False` with the persisted file untouched, a failed fetch likewise,
and the target file is only overwritten once the health check, both fetches
and the map construction have all succeeded. -/
theorem update_stock_map_atomic (run : UpdaterRun)
    (file corruptFile : Option (List (String × StockMapEntry))) :
    (run.healthy = false → update_stock_map run file corruptFile = (false, file)) ∧
    (∀ e, run.securityList = Except.error e →
      update_stock_map run file corruptFile = (false, file)) ∧
    (∀ e, run.sectorData = Except.error e →
      update_stock_map run file corruptFile = (false, file)) ∧
    ((update_stock_map run file corruptFile).1 = true →
      run.healthy = true ∧ run.saveOk = true ∧
      ∃ sec sd, run.securityList = Except.ok sec ∧ run.sectorData = Except.ok sd ∧
        (update_stock_map run file corruptFile).2 =
          some (create_stock_map sec (create_symbol_sector_map sd))) := by
  refine ⟨fun h => ?_, fun e h => ?_, fun e h => ?_, fun h => ?_⟩
  · simp [update_stock_map, h]
  · cases hh : run.healthy <;> simp [update_stock_map, hh, h]
  · cases hh : run.healthy <;> cases hs : run.securityList <;>
      simp [update_stock_map, hh, hs, h]
  · cases hh : run.healthy
    · simp [update_stock_map, hh] at h
    · cases hs : run.securityList with
      | error e => simp [update_stock_map, hh, hs] at h
      | ok sec =>
        cases hd : run.sectorData with
        | error e => simp [update_stock_map, hh, hs, hd] at h
        | ok sd =>
          cases hv : run.saveOk
          · simp [update_stock_map, hh, hs, hd, hv] at h
          · exact ⟨rfl, rfl, sec, sd, rfl, rfl, by simp [update_stock_map, hh, hs, hd, hv]⟩



/-- Witness for C9: a run with a failed health check returns `False` and
leaves the persisted file exactly as it was. -/
theorem update_stock_map_atomic_witness :
    unhealthyRun.healthy = false ∧
    update_stock_map unhealthyRun (some [("NABIL", { name := "Nabil Bank", sector := "Commercial Banks", internalSector := "Banking SubIndex" })]) none =
      (false, some [("NABIL", { name := "Nabil Bank", sector := "Commercial Banks", internalSector := "Banking SubIndex" })]) :=
  ⟨rfl, (update_stock_map_atomic unhealthyRun _ _).1 rfl⟩

/-! ## Claim C4: the index-name set holds only the corrected spellings -/

/-- Counterexample for C4: the legacy variant "Development Bank Ind." is
not in the validator's index-name set, and `validate_index_name` returns
Invalid for it, where the claim asserts the set includes every legacy
variant and validates it. -/
theorem legacy_index_name_rejected :
    (validate_index_name (pyStr ("Development Bank Ind."))).valid = false ∧
    pyStr ("Development Bank Ind.") ∉ index_names := by
  constructor
  · rfl
  · decide

/-- Claim C4 (amended): `validate_index_name` is an exact, case-sensitive
match of the stripped input against the fixed 14-name set, and that set
holds only the corrected display names: each corrected spelling is Valid
and each legacy/original upstream variant is Invalid. -/
theorem validate_index_name_exact :
    (∀ s : PyStr, (validate_index_name s).valid = true ↔ pyStrip s ∈ index_names) ∧
    (validate_index_name (pyStr ("Development Bank Index"))).valid = true ∧
    (validate_index_name (pyStr ("Hotels And Tourism Index"))).valid = true ∧
    (validate_index_name (pyStr ("Investment Index"))).valid = true ∧
    (validate_index_name (pyStr ("Manufacturing And Processing"))).valid = true ∧
    (validate_index_name (pyStr ("Development Bank Ind."))).valid = false ∧
    (validate_index_name (pyStr ("Hotels And Tourism"))).valid = false ∧
    (validate_index_name (pyStr ("Investment"))).valid = false ∧
    (validate_index_name (pyStr ("Manufacturing And Pr."))).valid = false := by
  refine ⟨fun s => ?_, by decide, by decide, by decide, by decide, by decide,
    by decide, by decide, by decide⟩
  by_cases hs : s = []
  · subst hs
    simp only [validate_index_name, if_pos rfl]
    constructor
    · intro h; exact absurd h (by decide)
    · intro h; exact absurd h (by decide)
  · simp only [validate_index_name, if_neg hs, is_valid_index_name]
    by_cases ht : pyStrip s = []
    · rw [ht]
      simp only [if_pos rfl]
      constructor
      · intro h; exact absurd h (by decide)
      · intro h; exact absurd h (by decide)
    · simp only [if_neg ht]
      by_cases hm : pyStrip s ∈ index_names
      · simp [hm]
      · simp [hm]

/-! ## Claims C6 and C7: the endpoint response cache -/

theorem alookup_removeKey_self {α : Type} (l : List (String × α)) (k : String) :
    alookup (removeKey l k) k = none := by
  induction l with
  | nil => simp [removeKey, alookup]
  | cons kv rest ih =>
    by_cases h : kv.1 = k
    · simpa [removeKey, List.filter_cons, h] using ih
    · simpa [removeKey, List.filter_cons, h, alookup] using ih

theorem alookup_removeKey_other {α : Type} (l : List (String × α)) (k q : String)
    (h : q ≠ k) : alookup (removeKey l k) q = alookup l q := by
  induction l with
  | nil => rfl
  | cons kv rest ih =>
    by_cases hk : kv.1 = k
    · have hkq : ¬ k = q := fun hh => h hh.symm
      simpa [removeKey, List.filter_cons, hk, alookup, hkq] using ih
    · by_cases hq : kv.1 = q
      · simp [removeKey, List.filter_cons, hk, hq, alookup, h]
      · simpa [removeKey, List.filter_cons, hk, hq, alookup] using ih

/-- Claim C6: a read strictly before the stored expiry instant serves the
cached payload with no upstream call; starting from a cold path, two reads
within the 600-second TTL issue exactly one upstream call and return the
same payload; a read at or after the expiry instant calls upstream and
evicts the expired entry (the eviction survives an upstream error, and a
successful refetch stores the new payload). -/
theorem cache_ttl_semantics {ε α : Type} (upstream : String → Except ε α)
    (s : CacheState α) (p : String) (now : ℤ) :
    (∀ d exp, alookup s.entries p = some (d, exp) → now < exp →
      fetch_nepse_api upstream s p now = (Except.ok d, s, false)) ∧
    (∀ d t1, alookup s.entries p = none → upstream p = Except.ok d →
      t1 < now + cacheTTL →
      (fetch_nepse_api upstream s p now).1 = Except.ok d ∧
      (fetch_nepse_api upstream s p now).2.2 = true ∧
      fetch_nepse_api upstream (fetch_nepse_api upstream s p now).2.1 p t1 =
        (Except.ok d, (fetch_nepse_api upstream s p now).2.1, false)) ∧
    (∀ d exp, alookup s.entries p = some (d, exp) → exp ≤ now →
      (fetch_nepse_api upstream s p now).2.2 = true ∧
      (∀ e, upstream p = Except.error e →
        alookup (fetch_nepse_api upstream s p now).2.1.entries p = none) ∧
      (∀ d2, upstream p = Except.ok d2 →
        alookup (fetch_nepse_api upstream s p now).2.1.entries p =
          some (d2, now + cacheTTL))) := by
  refine ⟨fun d exp hl hlt => ?_, fun d t1 hl hup ht1 => ?_, fun d exp hl hge => ?_⟩
  · simp [fetch_nepse_api, hl, hlt]
  · have h1 : fetch_nepse_api upstream s p now =
        (Except.ok d, { entries := upsert s.entries p (d, now + cacheTTL) }, true) := by
      simp [fetch_nepse_api, hl, hup]
    refine ⟨by simp [h1], by simp [h1], ?_⟩
    rw [h1]
    have h2 : alookup (upsert s.entries p (d, now + cacheTTL)) p =
        some (d, now + cacheTTL) := alookup_upsert_self _ _ _
    simp [fetch_nepse_api, h2, ht1]
  · have hnl : ¬ now < exp := not_lt.mpr hge
    refine ⟨?_, fun e hup => ?_, fun d2 hup => ?_⟩
    · cases hup : upstream p <;> simp [fetch_nepse_api, hl, hnl, hup]
    · simp [fetch_nepse_api, hl, hnl, hup, alookup_removeKey_self]
    · simp [fetch_nepse_api, hl, hnl, hup, alookup_upsert_self]





/-- Witness for C6: a cold read of "/Summary" at t=0 followed by a read at
t=10 yields the payload twice with a single upstream call. -/
theorem cache_ttl_semantics_witness :
    alookup emptyCache.entries "/Summary" = none ∧
    upOracle "/Summary" = Except.ok 42 ∧ (10 : ℤ) < 0 + cacheTTL ∧
    ((fetch_nepse_api upOracle emptyCache "/Summary" 0).1 = Except.ok 42 ∧
     (fetch_nepse_api upOracle emptyCache "/Summary" 0).2.2 = true ∧
     fetch_nepse_api upOracle
         (fetch_nepse_api upOracle emptyCache "/Summary" 0).2.1 "/Summary" 10 =
       (Except.ok 42,
        (fetch_nepse_api upOracle emptyCache "/Summary" 0).2.1, false)) :=
  ⟨rfl, rfl, by norm_num [cacheTTL],
   (cache_ttl_semantics upOracle emptyCache "/Summary" 0).2.1 42 10 rfl rfl
     (by norm_num [cacheTTL])⟩



/-- Counterexample for C7: when the upstream fails on a path whose cached
entry has already expired, the error propagates but the cache state is
*changed*: the expired entry was evicted before the upstream call, so the
dict differs from what it was, against the claim's "the cache state is
unchanged". -/
theorem cache_error_evicts_expired_entry :
    (fetch_nepse_api downOracle expiredCache "P" 10).1 = Except.error ("down") ∧
    (fetch_nepse_api downOracle expiredCache "P" 10).2.1 ≠ expiredCache := by
  constructor
  · rfl
  · decide

/-- Claim C7 (amended): when the upstream fetch fails and the path has no
unexpired cache entry, the error propagates to the caller, no entry is
stored for the path (the only possible state change being eviction of the
already-expired entry for that path; other paths are untouched), and a
subsequent call for the same path attempts the upstream fetch again. -/
theorem cache_error_uncached {ε α : Type} (upstream : String → Except ε α)
    (s : CacheState α) (p : String) (now : ℤ) (e : ε)
    (herr : upstream p = Except.error e)
    (hmiss : alookup s.entries p = none ∨
      ∃ d exp, alookup s.entries p = some (d, exp) ∧ exp ≤ now) :
    (fetch_nepse_api upstream s p now).1 = Except.error e ∧
    (fetch_nepse_api upstream s p now).2.2 = true ∧
    alookup (fetch_nepse_api upstream s p now).2.1.entries p = none ∧
    (∀ q, q ≠ p →
      alookup (fetch_nepse_api upstream s p now).2.1.entries q = alookup s.entries q) ∧
    (∀ t2, (fetch_nepse_api upstream (fetch_nepse_api upstream s p now).2.1 p t2).2.2 =
      true) := by
  rcases hmiss with hnone | ⟨d, exp, hsome, hexp⟩
  · have h1 : fetch_nepse_api upstream s p now = (Except.error e, s, true) := by
      simp [fetch_nepse_api, hnone, herr]
    refine ⟨by simp [h1], by simp [h1], by simp [h1, hnone], fun q hq => by simp [h1],
      fun t2 => ?_⟩
    rw [h1]
    simp [fetch_nepse_api, hnone, herr]
  · have h1 : fetch_nepse_api upstream s p now =
        (Except.error e, { entries := removeKey s.entries p }, true) := by
      simp [fetch_nepse_api, hsome, not_lt.mpr hexp, herr]
    refine ⟨by simp [h1], by simp [h1], ?_, fun q hq => ?_, fun t2 => ?_⟩
    · rw [h1]
      exact alookup_removeKey_self _ _
    · rw [h1]
      exact alookup_removeKey_other _ _ _ hq
    · rw [h1]
      simp [fetch_nepse_api, alookup_removeKey_self, herr]

/-- Witness for C7 (amended): the failing fetch on the expired entry for
"P" propagates the error, leaves no entry for "P", and the next call hits
upstream again. -/
theorem cache_error_uncached_witness :
    downOracle "P" = Except.error ("down") ∧
    (∃ d exp, alookup expiredCache.entries "P" = some (d, exp) ∧ exp ≤ (10 : ℤ)) ∧
    ((fetch_nepse_api downOracle expiredCache "P" 10).1 = Except.error ("down") ∧
     (fetch_nepse_api downOracle expiredCache "P" 10).2.2 = true ∧
     alookup (fetch_nepse_api downOracle expiredCache "P" 10).2.1.entries "P" = none ∧
     (∀ q, q ≠ "P" →
       alookup (fetch_nepse_api downOracle expiredCache "P" 10).2.1.entries q =
         alookup expiredCache.entries q) ∧
     (∀ t2,
       (fetch_nepse_api downOracle
         (fetch_nepse_api downOracle expiredCache "P" 10).2.1 "P" t2).2.2 = true)) :=
  ⟨rfl, ⟨7, 10, rfl, le_refl 10⟩,
   cache_error_uncached downOracle expiredCache "P" 10 "down" rfl
     (Or.inr ⟨7, 10, rfl, le_refl 10⟩)⟩


/-! ## Claim C8: symbol-miss suggestions -/

theorem char_toNat_ofNat (n : ℕ) (h : n < 55296) : (Char.ofNat n).toNat = n := by
  simp [Char.ofNat, Nat.isValidChar, h, Char.ofNatAux, Char.toNat, UInt32.toNat,
    BitVec.toNat_ofNatLt]

theorem pyUpperChar_idem (c : Char) : pyUpperChar (pyUpperChar c) = pyUpperChar c := by
  unfold pyUpperChar
  by_cases h : 97 ≤ c.toNat ∧ c.toNat ≤ 122
  · rw [if_pos h]
    have hv : (Char.ofNat (c.toNat - 32)).toNat = c.toNat - 32 :=
      char_toNat_ofNat _ (by omega)
    rw [if_neg]
    rw [hv]
    omega
  · rw [if_neg h, if_neg h]

theorem mem_pyStrip {s : PyStr} {c : Char} (h : c ∈ pyStrip s) : c ∈ s := by
  unfold pyStrip at h
  rw [List.mem_reverse] at h
  have h2 := (List.dropWhile_sublist pyIsSpace).subset h
  rw [List.mem_reverse] at h2
  exact (List.dropWhile_sublist pyIsSpace).subset h2

theorem pyUpper_fixed (s : PyStr) (h : ∀ c ∈ s, pyUpperChar c = c) : pyUpper s = s := by
  unfold pyUpper
  calc s.map pyUpperChar = s.map id := List.map_congr_left h
  _ = s := List.map_id s

theorem pyUpper_pyStrip_pyUpper (s : PyStr) :
    pyUpper (pyStrip (pyUpper s)) = pyStrip (pyUpper s) := by
  apply pyUpper_fixed
  intro c hc
  have hcu : c ∈ pyUpper s := mem_pyStrip hc
  unfold pyUpper at hcu
  rcases List.mem_map.mp hcu with ⟨a, _, ha⟩
  rw [← ha]
  exact pyUpperChar_idem a

theorem similarLoop_prefix (pfx : PyStr) :
    ∀ (l acc : List PyStr), (∀ x ∈ acc, pfx.isPrefixOf x = true) →
      ∀ x ∈ similarLoop pfx l acc, pfx.isPrefixOf x = true := by
  intro l
  induction l with
  | nil => intro acc hacc x hx; exact hacc x hx
  | cons v rest ih =>
    intro acc hacc x hx
    rw [similarLoop] at hx
    by_cases hv : pfx.isPrefixOf v
    · simp only [hv, if_pos] at hx
      have hacc2 : ∀ y ∈ acc ++ [v], pfx.isPrefixOf y = true := by
        intro y hy
        rcases List.mem_append.mp hy with hy | hy
        · exact hacc y hy
        · rw [List.mem_singleton.mp hy]; exact hv
      by_cases hlen : 5 ≤ (acc ++ [v]).length
      · rw [if_pos hlen] at hx
        exact hacc2 x hx
      · rw [if_neg hlen] at hx
        exact ih (acc ++ [v]) hacc2 x hx
    · simp only [hv, Bool.false_eq_true, ite_false] at hx
      by_cases hlen : 5 ≤ acc.length
      · rw [if_pos hlen] at hx
        exact hacc x hx
      · rw [if_neg hlen] at hx
        exact ih acc hacc x hx

/-- Claim C8: a non-empty input whose trimmed upper-cased form misses the
canonical symbol set validates as Invalid, with at most five suggestions,
each of which starts with the first two characters of the normalised
query. -/
theorem stock_symbol_miss_suggestions (stockData : List (PyStr × StockInfo)) (s : PyStr)
    (hne : s ≠ [])
    (hmiss : pyStrip (pyUpper s) ∉ get_valid_stock_symbols stockData) :
    (validate_stock_symbol stockData s).valid = false ∧
    ∃ sugg, (validate_stock_symbol stockData s).suggestions = some sugg ∧
      sugg.length ≤ 5 ∧
      ∀ x ∈ sugg, ((pyStrip (pyUpper s)).take 2).isPrefixOf x = true := by
  have hfix : pyUpper (pyStrip (pyUpper s)) = pyStrip (pyUpper s) :=
    pyUpper_pyStrip_pyUpper s
  have hvalid : is_valid_stock_symbol stockData (pyStrip (pyUpper s)) = false := by
    unfold is_valid_stock_symbol
    by_cases ht : pyStrip (pyUpper s) = []
    · rw [if_pos ht]
    · rw [if_neg ht, hfix]
      exact decide_eq_false hmiss
  have hres : validate_stock_symbol stockData s =
      { valid := false,
        error := some (pyStr ("Stock symbol '") ++ pyStrip (pyUpper s) ++
          pyStr ("' not found. Please check if it's a valid NEPSE listed company.")),
        symbol := some (pyStrip (pyUpper s)),
        suggestions := some (get_similar_symbols stockData (pyStrip (pyUpper s))),
        info := none } := by
    simp [validate_stock_symbol, hne, hvalid]
  refine ⟨by rw [hres], get_similar_symbols stockData (pyStrip (pyUpper s)),
    by rw [hres], ?_, ?_⟩
  · unfold get_similar_symbols
    by_cases ht : pyStrip (pyUpper s) = []
    · rw [if_pos ht]; simp
    · rw [if_neg ht]
      exact List.length_take_le _ _
  · intro x hx
    unfold get_similar_symbols at hx
    by_cases ht : pyStrip (pyUpper s) = []
    · rw [if_pos ht] at hx
      exact absurd hx (List.not_mem_nil x)
    · rw [if_neg ht] at hx
      rw [hfix] at hx
      exact similarLoop_prefix _ _ [] (by intro y hy; exact absurd hy (List.not_mem_nil y))
        x (List.mem_of_mem_take hx)



/-- Witness for C8: the unknown symbol "zz " normalises to "ZZ", misses
the set, and every suggestion starts with "ZZ". -/
theorem stock_symbol_miss_suggestions_witness :
    pyStr ("zz ") ≠ [] ∧
    pyStrip (pyUpper (pyStr ("zz "))) ∉ get_valid_stock_symbols stockDataW ∧
    ((validate_stock_symbol stockDataW (pyStr ("zz "))).valid = false ∧
     ∃ sugg, (validate_stock_symbol stockDataW (pyStr ("zz "))).suggestions = some sugg ∧
       sugg.length ≤ 5 ∧
       ∀ x ∈ sugg,
         ((pyStrip (pyUpper (pyStr ("zz ")))).take 2).isPrefixOf x = true) :=
  ⟨by decide, by decide,
   stock_symbol_miss_suggestions stockDataW (pyStr ("zz ")) (by decide) (by decide)⟩

/-! ## Claim C3: an unmapped sector aborts the aggregation -/

/-- Claim C3 evaluated at the failing input: a company list containing the
sector "Promoter Share" (present in the repository's own
`INTERNAL_SECTOR_MAP`, absent from `sector_mapper`) makes both transports'
aggregations abort with a `KeyError` (`none`), where the claim requires
the condition to be logged and the sector defaulted or skipped. -/
theorem unmapped_sector_aborts :
    getTradeTurnoverTransactionSubindices promoterInput = none ∧
    getTradeTurnoverTransactionSubindicesSocket promoterInput = none := by
  decide

/-! ## Claim C2: scrip exclusion and field defaults -/

theorem alookup_filterMap_none {β γ : Type} (keyOf : β → String)
    (f : β → Option (String × γ)) (hf : ∀ b kv, f b = some kv → kv.1 = keyOf b)
    (l : List β) (k : String) (hk : k ∉ l.map keyOf) :
    alookup (l.filterMap f) k = none := by
  induction l with
  | nil => rfl
  | cons b rest ih =>
    simp only [List.map_cons, List.mem_cons] at hk
    push_neg at hk
    rw [List.filterMap_cons]
    cases hfb : f b with
    | none => exact ih hk.2
    | some kv =>
      obtain ⟨k1, v1⟩ := kv
      have hk1 : k1 = keyOf b := hf b (k1, v1) hfb
      have hne : ¬ k1 = k := by rw [hk1]; exact fun he => hk.1 he.symm
      rw [alookup, if_neg hne]
      exact ih hk.2

theorem alookup_filterMap_key {β γ : Type} (keyOf : β → String)
    (f : β → Option (String × γ)) (hf : ∀ b kv, f b = some kv → kv.1 = keyOf b)
    (l : List β) (hnd : (l.map keyOf).Nodup) (c : β) (hc : c ∈ l) :
    alookup (l.filterMap f) (keyOf c) = Option.map Prod.snd (f c) := by
  induction l with
  | nil => cases hc
  | cons b rest ih =>
    rw [List.map_cons, List.nodup_cons] at hnd
    rw [List.filterMap_cons]
    rcases List.mem_cons.mp hc with hbc | hcr
    · subst hbc
      cases hfb : f c with
      | none =>
        rw [alookup_filterMap_none keyOf f hf rest (keyOf c) hnd.1]
        rfl
      | some kv =>
        obtain ⟨k1, v1⟩ := kv
        have hk1 : k1 = keyOf c := hf c (k1, v1) hfb
        subst hk1
        rw [alookup, if_pos rfl]
        rfl
    · have hne : keyOf c ≠ keyOf b := by
        intro he
        exact hnd.1 (he ▸ List.mem_map_of_mem keyOf hcr)
      cases hfb : f b with
      | none => exact ih hnd.2 hcr
      | some kv =>
        obtain ⟨k1, v1⟩ := kv
        have hk1 : k1 = keyOf b := hf b (k1, v1) hfb
        have hne2 : ¬ k1 = keyOf c := by rw [hk1]; exact fun he => hne he.symm
        rw [alookup, if_neg hne2]
        exact ih hnd.2 hcr

theorem scripsFold_eq (inp : AggInput) :
    ∀ (pairs : List (String × Company)) (acc : List (String × ScripDetail)),
      (∀ k ∈ pairs.map Prod.fst, k ∉ acc.map Prod.fst) →
      (pairs.map Prod.fst).Nodup →
      pairs.foldl (fun a kv =>
          if (buildScripDetail inp kv.1 kv.2).ltp = 0 ∨
              (buildScripDetail inp kv.1 kv.2).previousClose = 0
          then a else upsert a kv.1 (buildScripDetail inp kv.1 kv.2)) acc =
        acc ++ pairs.filterMap (fun kv =>
          if (buildScripDetail inp kv.1 kv.2).ltp = 0 ∨
              (buildScripDetail inp kv.1 kv.2).previousClose = 0
          then none else some (kv.1, buildScripDetail inp kv.1 kv.2)) := by
  intro pairs
  induction pairs with
  | nil => intro acc _ _; simp
  | cons kv rest ih =>
    intro acc hdis hnd
    rw [List.map_cons, List.nodup_cons] at hnd
    have hhead : kv.1 ∉ acc.map Prod.fst := hdis kv.1 (by simp)
    rw [List.foldl_cons, List.filterMap_cons]
    by_cases hex : (buildScripDetail inp kv.1 kv.2).ltp = 0 ∨
        (buildScripDetail inp kv.1 kv.2).previousClose = 0
    · rw [if_pos hex, if_pos hex]
      exact ih acc (fun k hk => hdis k (by simp [hk])) hnd.2
    · rw [if_neg hex, if_neg hex]
      rw [upsert_eq_append acc kv.1 _ hhead]
      have hdis2 : ∀ k ∈ rest.map Prod.fst,
          k ∉ (acc ++ [(kv.1, buildScripDetail inp kv.1 kv.2)]).map Prod.fst := by
        intro k hk
        rw [List.map_append, List.mem_append]
        rintro (h1 | h1)
        · exact hdis k (by simp [hk]) h1
        · rw [List.map_singleton, List.mem_singleton] at h1
          exact hnd.1 (h1 ▸ hk)
      rw [ih (acc ++ [(kv.1, buildScripDetail inp kv.1 kv.2)]) hdis2 hnd.2]
      simp

theorem companiesDict_nodup (inp : AggInput)
    (hnd : (inp.companies.map Company.symbol).Nodup) :
    companiesDict inp = inp.companies.map (fun c => (c.symbol, c)) := by
  rw [companiesDict]
  exact dictOfList_nodup Company.symbol inp.companies hnd

theorem scripsDetailsOf_eq (inp : AggInput)
    (hnd : (inp.companies.map Company.symbol).Nodup) :
    scripsDetailsOf inp =
      (inp.companies.map (fun c => (c.symbol, c))).filterMap (fun kv =>
        if (buildScripDetail inp kv.1 kv.2).ltp = 0 ∨
            (buildScripDetail inp kv.1 kv.2).previousClose = 0
        then none else some (kv.1, buildScripDetail inp kv.1 kv.2)) := by
  have hnd2 : ((inp.companies.map (fun c => (c.symbol, c))).map Prod.fst).Nodup := by
    rw [List.map_map]
    exact hnd
  have h := scripsFold_eq inp (inp.companies.map (fun c => (c.symbol, c))) []
    (by intro k _ hk; cases hk) hnd2
  unfold scripsDetailsOf
  rw [companiesDict_nodup inp hnd]
  simpa using h

theorem alookup_scripsDetails (inp : AggInput)
    (hnd : (inp.companies.map Company.symbol).Nodup)
    (c : Company) (hc : c ∈ inp.companies) :
    alookup (scripsDetailsOf inp) c.symbol =
      (if (buildScripDetail inp c.symbol c).ltp = 0 ∨
          (buildScripDetail inp c.symbol c).previousClose = 0
       then none else some (buildScripDetail inp c.symbol c)) := by
  rw [scripsDetailsOf_eq inp hnd]
  have hf : ∀ (kv : String × Company) (y : String × ScripDetail),
      (if (buildScripDetail inp kv.1 kv.2).ltp = 0 ∨
          (buildScripDetail inp kv.1 kv.2).previousClose = 0
       then none else some (kv.1, buildScripDetail inp kv.1 kv.2)) = some y →
      y.1 = kv.1 := by
    intro kv y h
    by_cases hex : (buildScripDetail inp kv.1 kv.2).ltp = 0 ∨
        (buildScripDetail inp kv.1 kv.2).previousClose = 0
    · rw [if_pos hex] at h; cases h
    · rw [if_neg hex] at h
      cases h
      rfl
  have hnd2 : ((inp.companies.map (fun c => (c.symbol, c))).map Prod.fst).Nodup := by
    rw [List.map_map]
    exact hnd
  have hc2 : (c.symbol, c) ∈ inp.companies.map (fun c => (c.symbol, c)) :=
    List.mem_map_of_mem _ hc
  have h := alookup_filterMap_key Prod.fst _ hf
    (inp.companies.map (fun c => (c.symbol, c))) hnd2 (c.symbol, c) hc2
  rw [h]
  by_cases hex : (buildScripDetail inp c.symbol c).ltp = 0 ∨
      (buildScripDetail inp c.symbol c).previousClose = 0
  · rw [if_pos hex, if_pos hex]
    rfl
  · rw [if_neg hex, if_neg hex]
    rfl

/-- Claim C2: a company whose derived ltp or previousClose is 0 is absent
from scripsDetails; one with both nonzero is present with its built
detail, whose Turnover, transaction and volume default to 0 when the
symbol is absent from the top-turnover, top-transaction and top-trade
collections, and whose previousClose and lastUpdatedDateTime default to 0
when absent from the price-volume collection. -/
theorem scrips_details_exclusion_and_defaults (inp : AggInput)
    (hnd : (inp.companies.map Company.symbol).Nodup)
    (c : Company) (hc : c ∈ inp.companies) :
    ((buildScripDetail inp c.symbol c).ltp = 0 ∨
        (buildScripDetail inp c.symbol c).previousClose = 0 →
      alookup (scripsDetailsOf inp) c.symbol = none) ∧
    ((buildScripDetail inp c.symbol c).ltp ≠ 0 ∧
        (buildScripDetail inp c.symbol c).previousClose ≠ 0 →
      alookup (scripsDetailsOf inp) c.symbol =
        some (buildScripDetail inp c.symbol c)) ∧
    (c.symbol ∉ inp.turnover.map TurnoverEntry.symbol →
      (buildScripDetail inp c.symbol c).Turnover = 0) ∧
    (c.symbol ∉ inp.transaction.map TransactionEntry.symbol →
      (buildScripDetail inp c.symbol c).transaction = 0) ∧
    (c.symbol ∉ inp.trade.map TradeEntry.symbol →
      (buildScripDetail inp c.symbol c).volume = 0) ∧
    (c.symbol ∉ inp.priceVolume.map PriceVolumeEntry.symbol →
      (buildScripDetail inp c.symbol c).previousClose = 0 ∧
      (buildScripDetail inp c.symbol c).lastUpdatedDateTime = 0) := by
  refine ⟨fun hex => ?_, fun hin => ?_, fun h => ?_, fun h => ?_, fun h => ?_,
    fun h => ?_⟩
  · rw [alookup_scripsDetails inp hnd c hc, if_pos hex]
  · rw [alookup_scripsDetails inp hnd c hc,
      if_neg (by rintro (h1 | h1); exacts [hin.1 h1, hin.2 h1])]
  · have hn : alookup (turnoverDict inp) c.symbol = none := by
      rw [turnoverDict]
      exact alookup_dictOfList_none _ _ _ h
    simp [buildScripDetail, hn]
  · have hn : alookup (transactionDict inp) c.symbol = none := by
      rw [transactionDict]
      exact alookup_dictOfList_none _ _ _ h
    simp [buildScripDetail, hn]
  · have hn : alookup (tradeDict inp) c.symbol = none := by
      rw [tradeDict]
      exact alookup_dictOfList_none _ _ _ h
    simp [buildScripDetail, hn]
  · have hn : alookup (priceVolumeDict inp) c.symbol = none := by
      rw [priceVolumeDict]
      exact alookup_dictOfList_none _ _ _ h
    constructor <;> simp [buildScripDetail, hn]

/-- Witness for C2: in `c2Input`, the non-trading company "ZERO" (derived
ltp 0) is dropped from scripsDetails, while "AAA" is present with Turnover,
transaction and volume all defaulted to 0. -/
theorem scrips_details_exclusion_and_defaults_witness :
    (c2Input.companies.map Company.symbol).Nodup ∧ cZERO ∈ c2Input.companies ∧
    cAAA ∈ c2Input.companies ∧
    (buildScripDetail c2Input cZERO.symbol cZERO).ltp = 0 ∧
    alookup (scripsDetailsOf c2Input) cZERO.symbol = none ∧
    alookup (scripsDetailsOf c2Input) cAAA.symbol =
      some (buildScripDetail c2Input cAAA.symbol cAAA) ∧
    (buildScripDetail c2Input cAAA.symbol cAAA).Turnover = 0 ∧
    (buildScripDetail c2Input cAAA.symbol cAAA).transaction = 0 ∧
    (buildScripDetail c2Input cAAA.symbol cAAA).volume = 0 :=
  ⟨by decide, by decide, by decide, by decide,
   (scrips_details_exclusion_and_defaults c2Input (by decide) cZERO
     (by decide)).1 (Or.inl (by decide)),
   (scrips_details_exclusion_and_defaults c2Input (by decide) cAAA
     (by decide)).2.1 ⟨by decide, by decide⟩,
   (scrips_details_exclusion_and_defaults c2Input (by decide) cAAA
     (by decide)).2.2.1 (by decide),
   (scrips_details_exclusion_and_defaults c2Input (by decide) cAAA
     (by decide)).2.2.2.1 (by decide),
   (scrips_details_exclusion_and_defaults c2Input (by decide) cAAA
     (by decide)).2.2.2.2.1 (by decide)⟩

/-! ## Claim C5: sector rollups are sums over surviving scrips -/

theorem buildSectors_eq_some (f : String → Option SectorDetail) :
    ∀ {l : List String} {res : List (String × SectorDetail)},
      buildSectors f l = some res →
      res.map Prod.fst = l ∧ ∀ kv ∈ res, f kv.1 = some kv.2 := by
  intro l
  induction l with
  | nil =>
    intro res h
    rw [buildSectors] at h
    cases h
    exact ⟨rfl, by intro kv hkv; cases hkv⟩
  | cons s rest ih =>
    intro res h
    rw [buildSectors] at h
    cases hf : f s with
    | none => rw [hf] at h; cases h
    | some d =>
      rw [hf] at h
      cases hb : buildSectors f rest with
      | none => rw [hb] at h; cases h
      | some ds =>
        rw [hb] at h
        cases h
        obtain ⟨ih1, ih2⟩ := ih hb
        refine ⟨by rw [List.map_cons, ih1], ?_⟩
        intro kv hkv
        rcases List.mem_cons.mp hkv with hkv | hkv
        · rw [hkv]; exact hf
        · exact ih2 kv hkv

theorem getTrade_inv (inp : AggInput) (r : AggResult)
    (h : getTradeTurnoverTransactionSubindices inp = some r) :
    r.scripsDetails = scripsDetailsOf inp ∧
    buildSectors (sectorDetailServer inp (scripsDetailsOf inp)) (sectorsOf inp) =
      some r.sectorsDetails := by
  simp only [getTradeTurnoverTransactionSubindices] at h
  cases hb : buildSectors (sectorDetailServer inp (scripsDetailsOf inp)) (sectorsOf inp) with
  | none => rw [hb] at h; cases h
  | some sectors =>
    rw [hb] at h
    cases h
    exact ⟨rfl, rfl⟩

theorem sectorSums_eq (s : String) :
    ∀ (scrips : List (String × ScripDetail)) (a b c : ℤ),
      scrips.foldl (fun acc kv =>
          if kv.2.sector = s then
            (acc.1 + kv.2.transaction, acc.2.1 + kv.2.volume, acc.2.2 + kv.2.Turnover)
          else acc) (a, b, c) =
        (a + ((scrips.filter (fun kv => kv.2.sector = s)).map
            (fun kv => kv.2.transaction)).sum,
         b + ((scrips.filter (fun kv => kv.2.sector = s)).map
            (fun kv => kv.2.volume)).sum,
         c + ((scrips.filter (fun kv => kv.2.sector = s)).map
            (fun kv => kv.2.Turnover)).sum) := by
  intro scrips
  induction scrips with
  | nil => intro a b c; simp
  | cons kv rest ih =>
    intro a b c
    by_cases hs : kv.2.sector = s
    · simp only [List.foldl_cons, List.filter_cons, hs, if_true, decide_True,
        List.map_cons, List.sum_cons]
      rw [ih]
      simp only [Prod.mk.injEq]
      refine ⟨by ring, by ring, by ring⟩
    · simp only [List.foldl_cons, List.filter_cons, hs, if_false, decide_False]
      exact ih a b c

theorem sectorSums_spec (scrips : List (String × ScripDetail)) (s : String) :
    sectorSums scrips s =
      (((scrips.filter (fun kv => kv.2.sector = s)).map
          (fun kv => kv.2.transaction)).sum,
       ((scrips.filter (fun kv => kv.2.sector = s)).map
          (fun kv => kv.2.volume)).sum,
       ((scrips.filter (fun kv => kv.2.sector = s)).map
          (fun kv => kv.2.Turnover)).sum) := by
  unfold sectorSums
  rw [sectorSums_eq s scrips 0 0 0]
  simp

theorem sectorDetailServer_fields (inp : AggInput)
    (scrips : List (String × ScripDetail)) (s : String) (sd : SectorDetail)
    (h : sectorDetailServer inp scrips s = some sd) :
    sd.transaction = (sectorSums scrips s).1 ∧
    sd.volume = (sectorSums scrips s).2.1 ∧
    sd.totalTurnover = (sectorSums scrips s).2.2 ∧ sd.sectorName = s := by
  unfold sectorDetailServer at h
  split at h
  · simp at h
  · split at h
    · simp at h
    · cases h
      exact ⟨rfl, rfl, rfl, rfl⟩

/-- Claim C5: for every sector entry the aggregation produces, its
transaction, volume and totalTurnover equal the sums of the transaction,
volume and Turnover fields over exactly those scripsDetails entries whose
sector is that sector name. -/
theorem sector_rollup_sums (inp : AggInput) (r : AggResult)
    (h : getTradeTurnoverTransactionSubindices inp = some r) :
    ∀ kv ∈ r.sectorsDetails,
      kv.2.transaction = ((r.scripsDetails.filter (fun sv => sv.2.sector = kv.1)).map
          (fun sv => sv.2.transaction)).sum ∧
      kv.2.volume = ((r.scripsDetails.filter (fun sv => sv.2.sector = kv.1)).map
          (fun sv => sv.2.volume)).sum ∧
      kv.2.totalTurnover = ((r.scripsDetails.filter (fun sv => sv.2.sector = kv.1)).map
          (fun sv => sv.2.Turnover)).sum := by
  intro kv hkv
  obtain ⟨hs, hb⟩ := getTrade_inv inp r h
  obtain ⟨-, hmem⟩ := buildSectors_eq_some _ hb
  have hf := hmem kv hkv
  obtain ⟨h1, h2, h3, -⟩ := sectorDetailServer_fields inp _ kv.1 kv.2 hf
  rw [hs, h1, h2, h3, sectorSums_spec]
  exact ⟨rfl, rfl, rfl⟩

/-- Witness for C5: the literal Finance fixture with turnovers 100 and 50
aggregates, and its "Finance" sector entry carries totalTurnover 150, equal
to the sum over the two surviving Finance scrips. -/
theorem sector_rollup_sums_witness :
    getTradeTurnoverTransactionSubindices finInput = some finRes ∧
    (alookup finRes.sectorsDetails "Finance").map SectorDetail.totalTurnover =
      some 150 ∧
    (∀ kv ∈ finRes.sectorsDetails,
      kv.2.transaction = ((finRes.scripsDetails.filter (fun sv => sv.2.sector = kv.1)).map
          (fun sv => sv.2.transaction)).sum ∧
      kv.2.volume = ((finRes.scripsDetails.filter (fun sv => sv.2.sector = kv.1)).map
          (fun sv => sv.2.volume)).sum ∧
      kv.2.totalTurnover = ((finRes.scripsDetails.filter (fun sv => sv.2.sector = kv.1)).map
          (fun sv => sv.2.Turnover)).sum) :=
  ⟨by decide, by decide, sector_rollup_sums finInput finRes (by decide)⟩

/-! ## Claim C10: sectorsDetails covers every sector of the company list -/

theorem mem_dedupFirst (l : List String) (x : String) :
    x ∈ dedupFirst l ↔ x ∈ l := by
  suffices H : ∀ (acc : List String),
      (x ∈ l.foldl (fun acc s => if s ∈ acc then acc else acc ++ [s]) acc ↔
        x ∈ acc ∨ x ∈ l) by
    have := H []
    simpa [dedupFirst] using this
  induction l with
  | nil => intro acc; simp
  | cons y rest ih =>
    intro acc
    rw [List.foldl_cons]
    by_cases hy : y ∈ acc
    · rw [if_pos hy, ih]
      simp only [List.mem_cons]
      constructor
      · rintro (h | h)
        · exact Or.inl h
        · exact Or.inr (Or.inr h)
      · rintro (h | h | h)
        · exact Or.inl h
        · exact Or.inl (h ▸ hy)
        · exact Or.inr h
    · rw [if_neg hy, ih]
      simp only [List.mem_append, List.mem_singleton, List.mem_cons]
      tauto

theorem sectorsOf_mem (inp : AggInput)
    (hnd : (inp.companies.map Company.symbol).Nodup) (sector : String) :
    sector ∈ sectorsOf inp ↔ sector ∈ inp.companies.map Company.sectorName := by
  unfold sectorsOf
  rw [mem_dedupFirst, companiesDict_nodup inp hnd, List.map_map]
  rfl

theorem sectorSums_zero (scrips : List (String × ScripDetail)) (s : String)
    (h : ∀ sv ∈ scrips, sv.2.sector ≠ s) : sectorSums scrips s = (0, 0, 0) := by
  rw [sectorSums_spec]
  have : scrips.filter (fun kv => kv.2.sector = s) = [] :=
    List.filter_eq_nil_iff.mpr (by intro a ha; simpa using h a ha)
  rw [this]
  simp

/-- Claim C10: the key set of sectorsDetails equals the set of sectorName
values over the full company list, and a sector all of whose scrips were
excluded by the drop-on-zero rule still appears, with transaction, volume
and totalTurnover all 0. -/
theorem sectors_cover_company_list (inp : AggInput) (r : AggResult)
    (hnd : (inp.companies.map Company.symbol).Nodup)
    (h : getTradeTurnoverTransactionSubindices inp = some r) :
    (∀ sector, sector ∈ r.sectorsDetails.map Prod.fst ↔
      sector ∈ inp.companies.map Company.sectorName) ∧
    (∀ kv ∈ r.sectorsDetails, (∀ sv ∈ r.scripsDetails, sv.2.sector ≠ kv.1) →
      kv.2.transaction = 0 ∧ kv.2.volume = 0 ∧ kv.2.totalTurnover = 0) := by
  obtain ⟨hs, hb⟩ := getTrade_inv inp r h
  obtain ⟨hkeys, hmem⟩ := buildSectors_eq_some _ hb
  constructor
  · intro sector
    rw [hkeys]
    exact sectorsOf_mem inp hnd sector
  · intro kv hkv hempty
    have hf := hmem kv hkv
    obtain ⟨h1, h2, h3, -⟩ := sectorDetailServer_fields inp _ kv.1 kv.2 hf
    have hz : sectorSums (scripsDetailsOf inp) kv.1 = (0, 0, 0) := by
      apply sectorSums_zero
      intro sv hsv
      exact hempty sv (by rw [hs]; exact hsv)
    rw [h1, h2, h3, hz]
    exact ⟨rfl, rfl, rfl⟩

/-- Witness for C10: in `haltInput` the only Finance company is dropped by
the drop-on-zero rule, yet "Finance" appears in sectorsDetails with all
three rollup fields 0. -/
theorem sectors_cover_company_list_witness :
    (haltInput.companies.map Company.symbol).Nodup ∧
    getTradeTurnoverTransactionSubindices haltInput = some haltRes ∧
    haltRes.scripsDetails = [] ∧
    ((∀ sector, sector ∈ haltRes.sectorsDetails.map Prod.fst ↔
        sector ∈ haltInput.companies.map Company.sectorName) ∧
     (∀ kv ∈ haltRes.sectorsDetails,
        (∀ sv ∈ haltRes.scripsDetails, sv.2.sector ≠ kv.1) →
        kv.2.transaction = 0 ∧ kv.2.volume = 0 ∧ kv.2.totalTurnover = 0)) :=
  ⟨by decide, by decide, by decide,
   sectors_cover_company_list haltInput haltRes (by decide) (by decide)⟩

/-! ## Claim C1: the rate-limiter window is per endpoint, not per category -/

theorem cleanup_keep (now : ℤ) (w : List ℤ)
    (h : ∀ x ∈ w, ¬ x < now - window_size) : cleanup_old_requests now w = w := by
  unfold cleanup_old_requests
  cases w with
  | nil => rfl
  | cons x rest =>
    rw [List.dropWhile_cons, if_neg (by simpa using h x (List.mem_cons_self x rest))]

theorem cleanup_all (now : ℤ) (w : List ℤ)
    (h : ∀ x ∈ w, x < now - window_size) : cleanup_old_requests now w = [] := by
  unfold cleanup_old_requests
  induction w with
  | nil => rfl
  | cons x rest ih =>
    rw [List.dropWhile_cons, if_pos (by simpa using h x (List.mem_cons_self x rest))]
    exact ih (fun y hy => h y (List.mem_cons_of_mem x hy))

theorem get_endpoint_category_mem (e : String) :
    get_endpoint_category e ∈
      ["health", "validation", "market_data", "websocket", "websocket_message",
       "default"] := by
  unfold get_endpoint_category
  split
  · simp
  · split
    · simp
    · split
      · simp
      · split
        · simp
        · split
          · simp
          · simp

theorem getLimit_category_pos (e : String) :
    0 < getLimit (get_endpoint_category e) := by
  have h := get_endpoint_category_mem e
  simp only [List.mem_cons, List.not_mem_nil, or_false] at h
  rcases h with h | h | h | h | h | h <;> rw [h] <;> decide

theorem is_allowed_single (ip e : String) (w : List ℤ) (c0 now : ℤ) :
    (getLimit (get_endpoint_category e) ≤ (cleanup_old_requests now w).length →
      (is_allowed ⟨[((ip, e), w)], [(ip, c0)]⟩ ip e now).1 = false ∧
      (is_allowed ⟨[((ip, e), w)], [(ip, c0)]⟩ ip e now).2.2 =
        ⟨[((ip, e), cleanup_old_requests now w)], [(ip, now)]⟩) ∧
    ((cleanup_old_requests now w).length < getLimit (get_endpoint_category e) →
      (is_allowed ⟨[((ip, e), w)], [(ip, c0)]⟩ ip e now).1 = true ∧
      (is_allowed ⟨[((ip, e), w)], [(ip, c0)]⟩ ip e now).2.2 =
        ⟨[((ip, e), cleanup_old_requests now w ++ [now])], [(ip, now)]⟩) := by
  constructor
  · intro hcnt
    constructor <;> simp [is_allowed, lookupWindow, alookup, upsert, hcnt]
  · intro hcnt
    constructor <;>
      simp [is_allowed, lookupWindow, alookup, upsert, Nat.not_le.mpr hcnt]

theorem is_allowed_init (ip e : String) (now : ℤ)
    (hlim : 0 < getLimit (get_endpoint_category e)) :
    (is_allowed initRateState ip e now).1 = true ∧
    (is_allowed initRateState ip e now).2.2 =
      ⟨[((ip, e), [now])], [(ip, now)]⟩ := by
  constructor <;>
    simp [is_allowed, initRateState, lookupWindow, alookup, upsert,
      cleanup_old_requests, Nat.not_le.mpr hlim]

theorem runSeq_append (s : RateState) (l1 l2 : List (String × String × ℤ)) :
    runSeq s (l1 ++ l2) =
      ((runSeq s l1).1 ++ (runSeq (runSeq s l1).2 l2).1,
       (runSeq (runSeq s l1).2 l2).2) := by
  induction l1 generalizing s with
  | nil => simp [runSeq]
  | cons r rest ih =>
    obtain ⟨a, b, c⟩ := r
    simp [runSeq, ih]

theorem runSeq_admit_phase (ip e : String) :
    ∀ (ts w : List ℤ) (c0 : ℤ),
      w.length + ts.length ≤ getLimit (get_endpoint_category e) →
      (∀ τ ∈ ts, ∀ x ∈ w ++ ts, ¬ x < τ - window_size) →
      ∃ cLast, runSeq ⟨[((ip, e), w)], [(ip, c0)]⟩ (ts.map (fun τ => (ip, e, τ))) =
        (List.replicate ts.length true, ⟨[((ip, e), w ++ ts)], [(ip, cLast)]⟩) := by
  intro ts
  induction ts with
  | nil => intro w c0 _ _; exact ⟨c0, by simp [runSeq]⟩
  | cons τ rest ih =>
    intro w c0 hcnt hkeep
    have hpurge : cleanup_old_requests τ w = w :=
      cleanup_keep τ w (fun x hx =>
        hkeep τ (List.mem_cons_self τ rest) x (List.mem_append.mpr (Or.inl hx)))
    have hcount : (cleanup_old_requests τ w).length < getLimit (get_endpoint_category e) := by
      rw [hpurge]
      simp only [List.length_cons] at hcnt
      omega
    have hstep := (is_allowed_single ip e w c0 τ).2 hcount
    obtain ⟨cL, hrest⟩ := ih (w ++ [τ]) τ
      (by simp only [List.length_append, List.length_cons, List.length_nil] at hcnt ⊢; omega)
      (by
        intro τ2 hτ2 x hx
        refine hkeep τ2 (List.mem_cons_of_mem τ hτ2) x ?_
        have : (w ++ [τ]) ++ rest = w ++ (τ :: rest) := by simp
        rw [this] at hx
        exact hx)
    refine ⟨cL, ?_⟩
    rw [List.map_cons, runSeq]
    simp only [hstep.1, hstep.2, hpurge]
    rw [hrest]
    simp [List.replicate_succ]

/-- Counterexample for C1: both "/Summary" and "/LiveMarket" are category
"market_data" with limit 60, yet after 60 admitted "/Summary" requests the
61st market_data request of the same client in the same window — sent to
"/LiveMarket" — is admitted, because the window deques are keyed by the
endpoint route string, not by the category. -/
theorem rate_limit_category_counterexample :
    get_endpoint_category "/Summary" = "market_data" ∧
    get_endpoint_category "/LiveMarket" = "market_data" ∧
    getLimit "market_data" = 60 ∧
    (runSeq initRateState rateCxReqs).1 = List.replicate 60 true ++ [true] := by
  refine ⟨by decide, by decide, by decide, by decide⟩

/-- Claim C1 (amended): for every client and every *endpoint*, after N
admitted requests on that endpoint within one 60-second sliding window,
where N is the configured limit of the endpoint's category, the (N+1)-th
request on that endpoint in the same window is rejected without being
recorded in the window, and once the window has elapsed a new request on
that endpoint is admitted again. -/
theorem rate_limit_per_endpoint (ip e : String) (ts : List ℤ) (t : ℤ)
    (hN : ts.length = getLimit (get_endpoint_category e))
    (hle : ∀ τ ∈ ts, τ ≤ t)
    (hspan : ∀ τ ∈ ts, t - τ ≤ window_size) :
    (runSeq initRateState ((ts ++ [t]).map (fun τ => (ip, e, τ)))).1 =
      List.replicate ts.length true ++ [false] ∧
    lookupWindow (runSeq initRateState ((ts ++ [t]).map (fun τ => (ip, e, τ)))).2 ip e
      = ts ∧
    (∀ t2, (∀ x ∈ ts, x < t2 - window_size) →
      (is_allowed (runSeq initRateState ((ts ++ [t]).map (fun τ => (ip, e, τ)))).2
        ip e t2).1 = true) := by
  have hlim : 0 < getLimit (get_endpoint_category e) := getLimit_category_pos e
  cases ts with
  | nil =>
    rw [← hN] at hlim
    exact absurd hlim (by simp)
  | cons t1 rest =>
    have hinit := is_allowed_init ip e t1 hlim
    have hphase := runSeq_admit_phase ip e rest [t1] t1
      (by simp only [List.length_cons, List.length_nil] at hN ⊢; omega)
      (by
        intro τ2 hτ2 x hx
        have hxts : x ∈ t1 :: rest := by simpa using hx
        have hτts : τ2 ∈ t1 :: rest := List.mem_cons_of_mem t1 hτ2
        have h1 : τ2 ≤ t := hle τ2 hτts
        have h2 : t - x ≤ window_size := hspan x hxts
        simp only [window_size] at h2 ⊢
        omega)
    obtain ⟨cL, hphase⟩ := hphase
    have hpurgeF : cleanup_old_requests t (t1 :: rest) = t1 :: rest :=
      cleanup_keep t (t1 :: rest) (by
        intro x hx
        have h2 : t - x ≤ window_size := hspan x hx
        simp only [window_size] at h2 ⊢
        omega)
    have hcntF : getLimit (get_endpoint_category e) ≤
        (cleanup_old_requests t (t1 :: rest)).length := by
      rw [hpurgeF, ← hN]
    have hfinal := (is_allowed_single ip e (t1 :: rest) cL t).1 hcntF
    have hrun : runSeq initRateState (((t1 :: rest) ++ [t]).map (fun τ => (ip, e, τ))) =
        (true :: (List.replicate rest.length true ++ [false]),
         ⟨[((ip, e), t1 :: rest)], [(ip, t)]⟩) := by
      rw [List.cons_append, List.map_cons]
      simp only [runSeq]
      simp only [hinit.1, hinit.2]
      rw [List.map_append, runSeq_append, hphase]
      simp only [List.map_singleton, List.singleton_append]
      simp only [runSeq]
      simp only [hfinal.1, hfinal.2, hpurgeF]
    refine ⟨?_, ?_, ?_⟩
    · rw [hrun]
      simp [List.replicate_succ]
    · rw [hrun]
      simp [lookupWindow, alookup]
    · intro t2 hold
      rw [hrun]
      have hdrop : cleanup_old_requests t2 (t1 :: rest) = [] :=
        cleanup_all t2 (t1 :: rest) hold
      have := (is_allowed_single ip e (t1 :: rest) t t2).2 (by rw [hdrop]; exact hlim)
      exact this.1

/-- Witness for C1 (amended): the client "1.1.1.1" sends 50 requests to
"/health" (category limit 50) at t=0 and a 51st at t=0, which is rejected
and not recorded; a request at t=100 (past the window) is admitted. -/
theorem rate_limit_per_endpoint_witness :
    (List.replicate 50 (0 : ℤ)).length = getLimit (get_endpoint_category "/health") ∧
    ((runSeq initRateState
        ((List.replicate 50 (0 : ℤ) ++ [(0 : ℤ)]).map (fun τ => ("1.1.1.1", "/health", τ)))).1 =
      List.replicate (List.replicate 50 (0 : ℤ)).length true ++ [false] ∧
     lookupWindow (runSeq initRateState
        ((List.replicate 50 (0 : ℤ) ++ [(0 : ℤ)]).map (fun τ => ("1.1.1.1", "/health", τ)))).2
        "1.1.1.1" "/health" = List.replicate 50 (0 : ℤ) ∧
     (∀ t2, (∀ x ∈ List.replicate 50 (0 : ℤ), x < t2 - window_size) →
       (is_allowed (runSeq initRateState
          ((List.replicate 50 (0 : ℤ) ++ [(0 : ℤ)]).map (fun τ => ("1.1.1.1", "/health", τ)))).2
          "1.1.1.1" "/health" t2).1 = true)) :=
  ⟨by decide,
   rate_limit_per_endpoint "1.1.1.1" "/health" (List.replicate 50 0) 0 (by decide)
     (by intro τ hτ; rw [List.eq_of_mem_replicate hτ])
     (by intro τ hτ; rw [List.eq_of_mem_replicate hτ]; decide)⟩

end NepseAPI
